import Mathlib

set_option autoImplicit false

/-!
Verification development for the corso incremental collection & restore-caching
engine.  The Go source is embedded shallowly: structs become structures, maps
become association lists, goroutine fan-out loops become sequential folds over
the id lists (all shared mutations in the source are mutex- or channel-
serialized, so every concurrent execution is equivalent to some serial order),
and fallible calls return `Except`/`Option` values.
-/

namespace Corso

/-! ## Fault bus (package fault, embedded from src/pkg/backup/details/groups.go)

`ε` stands for Go's `error` interface values, `σ` for `fault.Skipped` records.
A `nil` Go error/record argument is `none`.
-/

namespace Fault

structure Bus (ε σ : Type) where
  failure : Option ε
  recoverable : List ε
  skipped : List σ
  failFast : Bool

variable {ε σ : Type}

/-- `fault.New`: constructs a bus with default values in place. -/
def New (ε σ : Type) (failFast : Bool) : Bus ε σ :=
  { failure := none, recoverable := [], skipped := [], failFast := failFast }

/-- `Bus.FailFast` accessor. -/
def Bus.FailFast (e : Bus ε σ) : Bool :=
  e.failFast

/-- `Bus.Failure`: returns the primary error. -/
def Bus.Failure (e : Bus ε σ) : Option ε :=
  e.failure

/-- `Bus.Recovered`: snapshot of the recoverable error slice. -/
def Bus.Recovered (e : Bus ε σ) : List ε :=
  e.recoverable

/-- `Bus.Skipped`: snapshot of the skipped slice. -/
def Bus.Skipped (e : Bus ε σ) : List σ :=
  e.skipped

/-- `Bus.setFailure`: sets `bus.failure` if empty, otherwise appends the error
to the recoverable slice as an overflow container. -/
def Bus.setFailure (e : Bus ε σ) (err : ε) : Bus ε σ :=
  if e.failure.isNone then
    { e with failure := some err }
  else
    { e with recoverable := e.recoverable ++ [err] }

/-- `Bus.Fail`: sets the non-recoverable error; a `nil` error is ignored. -/
def Bus.Fail (e : Bus ε σ) (err : Option ε) : Bus ε σ :=
  match err with
  | none => e
  | some err => e.setFailure err

/-- `Bus.addRecoverableErr`: if `failFast` is set and no failure exists yet the
error is promoted to the failure slot; in every case it is appended to the
recoverable slice. -/
def Bus.addRecoverableErr (e : Bus ε σ) (err : ε) : Bus ε σ :=
  let e' := if e.failure.isNone && e.failFast then e.setFailure err else e
  { e' with recoverable := e'.recoverable ++ [err] }

/-- `Bus.AddRecoverable`: a `nil` error is ignored, otherwise it is recorded
via `addRecoverableErr` (the logging in `logAndAddRecoverable` has no effect
on bus state). -/
def Bus.AddRecoverable (e : Bus ε σ) (err : Option ε) : Bus ε σ :=
  match err with
  | none => e
  | some err => e.addRecoverableErr err

/-- `Bus.AddSkip`: a `nil` record is ignored, otherwise the record is appended
to the skipped slice. -/
def Bus.AddSkip (e : Bus ε σ) (s : Option σ) : Bus ε σ :=
  match s with
  | none => e
  | some s => { e with skipped := e.skipped ++ [s] }

end Fault

/-! ## Shared item-stream records

Both `groups.Collection.streamItems` and `exchange.prefetchCollection.streamItems`
emit `Item` values on a channel and finish by handing a status record to the
status updater.  Bytes are abstracted to `List Nat`, timestamps to `Nat`.
-/

structure StreamItem where
  id : String
  message : List Nat
  deleted : Bool
  modTime : Nat
deriving DecidableEq, Repr

/-- `support.CollectionMetrics` as filled in by `finishPopulation`/`updateStatus`:
`objects` is the attempted count, `successes` the emitted/successful count. -/
structure CollectionStatus where
  objects : Nat
  successes : Nat
  bytes : Nat
deriving DecidableEq, Repr

/-- The removed-items loop shared by both collections: every removed id is
emitted immediately as a tombstone with `deleted = true` and `time.Now()` as
modification time.  The wall clock is modelled by `clock` applied to the
emission index. -/
def removedRecords (removed : List String) (clock : Nat → Nat) : List StreamItem :=
  removed.enum.map fun p => { id := p.2, message := [], deleted := true, modTime := clock p.1 }

/-! ## Groups collection stream (src/internal/m365/collection/groups/collection.go) -/

namespace Groups

/-- The value produced by `getter.GetChannelMessage` plus its serialized bytes:
the emitted record's id is taken from the fetched item (`item.GetId()`), its
mod time and size from the parsed info. -/
structure ChannelMessage where
  id : String
  data : List Nat
  modified : Nat
  size : Nat

/-- The fetch results of the added-items loop of `Collection.streamItems`.
The loop checks `el.Failure()` before each item and stops launching work once
it is non-nil; nothing inside `streamItems` ever sets the local bus, so the
value is constant for the whole loop and passed here as `elFailure`.  A fetch
or serialization error is logged and the item is dropped (no record emitted,
no recoverable error recorded). -/
def fetchedMessages (added : List String) (getMsg : String → Option ChannelMessage)
    (elFailure : Option Unit) : List ChannelMessage :=
  match elFailure with
  | some _ => []
  | none => added.filterMap getMsg

/-- The records emitted by the added-items loop. -/
def addedRecords (added : List String) (getMsg : String → Option ChannelMessage)
    (elFailure : Option Unit) : List StreamItem :=
  (fetchedMessages added getMsg elFailure).map fun m =>
    { id := m.id, message := m.data, deleted := false, modTime := m.modified }

/-- `Collection.streamItems` + `Collection.finishPopulation`: emits tombstones
for removed ids and fetched records for added ids (one serialization of the
bounded-parallel fan-out; emission order across goroutines is unspecified in
the source), closes the stream, and reports a status with
`Objects = len(added)+len(removed)`, `Successes = streamedItems` and the total
byte count. -/
def streamItems (added removed : List String) (getMsg : String → Option ChannelMessage)
    (clock : Nat → Nat) (elFailure : Option Unit) : List StreamItem × CollectionStatus :=
  let emitted := removedRecords removed clock ++ addedRecords added getMsg elFailure
  let totalBytes := ((fetchedMessages added getMsg elFailure).map (fun m => m.size)).sum
  (emitted,
    { objects := added.length + removed.length
      successes := emitted.length
      bytes := totalBytes })

end Groups

/-! ## Exchange collection stream (src/internal/m365/collection/exchange/collection.go) -/

namespace Exchange

/-- An error returned by `getItemAndInfo` (fetch + serialize).
`deletedInFlight` is true when `graph.IsErrDeletedInFlight(err)` holds. -/
structure FetchErr where
  deletedInFlight : Bool
deriving DecidableEq, Repr

/-- A successfully fetched and serialized exchange item. -/
structure ExchangeItemData where
  data : List Nat
  modified : Nat
  size : Nat

/-- Result of the added-items loop of `prefetchCollection.streamItems`. -/
structure AddedLoopOut (σ : Type) where
  emitted : List StreamItem
  success : Nat
  bytes : Nat
  bus : Fault.Bus FetchErr σ

/-- The added-items loop of `prefetchCollection.streamItems`: before each item
the loop checks `errs.Failure()` and stops launching new work once it is
non-nil.  A fetch error that is deleted-in-flight counts as a success with no
record emitted and no recoverable error; any other fetch error is recorded on
the fault bus as recoverable (which, on a fail-fast bus, promotes to the
failure slot and stops the loop). -/
def addedLoop {σ : Type} (fetch : String → Except FetchErr ExchangeItemData) :
    List String → Fault.Bus FetchErr σ → AddedLoopOut σ
  | [], bus => { emitted := [], success := 0, bytes := 0, bus := bus }
  | id :: rest, bus =>
    if bus.Failure.isSome then { emitted := [], success := 0, bytes := 0, bus := bus }
    else
      match fetch id with
      | .ok m =>
          let out := addedLoop fetch rest bus
          { emitted := { id := id, message := m.data, deleted := false, modTime := m.modified }
              :: out.emitted
            success := out.success + 1
            bytes := out.bytes + m.size
            bus := out.bus }
      | .error fe =>
          if fe.deletedInFlight then
            let out := addedLoop fetch rest bus
            { out with success := out.success + 1 }
          else
            addedLoop fetch rest (bus.AddRecoverable (some fe))

/-- `prefetchCollection.streamItems` + `updateStatus`: removed ids become
tombstones (each counted as a success), added ids run through `addedLoop`, and
the final status reports `Objects = len(added)+len(removed)`,
`Successes = success` and the total byte count.  Returns the emitted records,
the status, and the final fault bus. -/
def streamItems {σ : Type} (added removed : List String)
    (fetch : String → Except FetchErr ExchangeItemData) (clock : Nat → Nat)
    (bus : Fault.Bus FetchErr σ) :
    List StreamItem × CollectionStatus × Fault.Bus FetchErr σ :=
  let out := addedLoop fetch added bus
  let emitted := removedRecords removed clock ++ out.emitted
  (emitted,
    { objects := added.length + removed.length
      successes := removed.length + out.success
      bytes := out.bytes },
    out.bus)

end Exchange

/-! ## Association-list maps

Go maps (`map[string]T`, `xsync.MapOf`) are embedded as association lists with
value-replacing insertion, so entry counts and last-write-wins updates are
observable. -/

/-- Map lookup: first entry with the given key. -/
def lookupA {κ β : Type} [DecidableEq κ] : List (κ × β) → κ → Option β
  | [], _ => none
  | (k, v) :: rest, key => if k = key then some v else lookupA rest key

/-- Map store: replaces the value at an existing key, otherwise appends. -/
def insertA {κ β : Type} [DecidableEq κ] : List (κ × β) → κ → β → List (κ × β)
  | [], key, v => [(key, v)]
  | (k, w) :: rest, key, v =>
    if k = key then (k, v) :: rest else (k, w) :: insertA rest key v

/-! ## Drive: URL cache

Modelled from the spec: the `urlCache` implementation
(`src/internal/m365/collection/drive/url_cache.go`) is not under `src/`; only
its unit tests are.  The model follows spec section 4.2 (state machine
`Empty → Populated → stale → Refreshing → Populated`, refresh via full delta
enumeration, post-refresh lookup error for absent ids), with record-level
behavior pinned by the repository's own unit tests (`TestGetItemProperties`,
`TestNeedsRefresh`): a deleted record is stored with an empty URL, duplicate
ids within one refresh are last-write-wins, a page error aborts the refresh
leaving no committed entries and the refresh timestamp and delta-query count
untouched, and a folder record is not committed to the cache (the tests
require a post-refresh populated cache with the folder id absent).
Mutations happen inside a single mutual-exclusion region, so executions are
serialized; the model threads cache state explicitly and represents the delta
enumeration as a list of pages. -/

namespace Drive

structure ItemProps where
  downloadURL : String
  isDeleted : Bool
deriving DecidableEq, Repr

/-- One record of the paged delta enumeration. -/
structure DeltaItem where
  id : String
  isFolder : Bool
  url : String
  deleted : Bool
deriving DecidableEq, Repr

/-- One page of the delta enumeration; `err` marks a page-level fetch error. -/
structure DeltaPage where
  items : List DeltaItem
  err : Bool
deriving DecidableEq, Repr

structure URLCache where
  driveID : String
  idToProps : List (String × ItemProps)
  lastRefreshTime : Option Nat
  deltaQueryCount : Nat
  refreshInterval : Nat
deriving DecidableEq, Repr

/-- A freshly constructed (post-validation) url cache: empty map, zero-value
last refresh time, zero delta queries. -/
def newURLCache (driveID : String) (refreshInterval : Nat) : URLCache :=
  { driveID := driveID
    idToProps := []
    lastRefreshTime := none
    deltaQueryCount := 0
    refreshInterval := refreshInterval }

/-- `needsRefresh`: true when the cache is empty or the refresh interval has
elapsed since the last successful refresh. -/
def needsRefresh (uc : URLCache) (now : Nat) : Bool :=
  uc.idToProps.isEmpty ||
    (match uc.lastRefreshTime with
     | none => true
     | some t => decide (t + uc.refreshInterval < now))

/-- Consumes one page of records: folder records are not committed; a file
record stores `{url, isDeleted}` keyed by id, overwriting any prior entry
(last-write-wins); a deleted record carries no download URL. -/
def updateCachePage (m : List (String × ItemProps)) (items : List DeltaItem) :
    List (String × ItemProps) :=
  items.foldl
    (fun m it =>
      if it.isFolder then m
      else insertA m it.id
        { downloadURL := if it.deleted then "" else it.url, isDeleted := it.deleted })
    m

/-- Walks every page of the delta enumeration; a page-level error aborts the
walk. -/
def walkPages (m : List (String × ItemProps)) : List DeltaPage → Option (List (String × ItemProps))
  | [] => some m
  | pg :: rest => if pg.err then none else walkPages (updateCachePage m pg.items) rest

/-- The refresh procedure: on success commits the new map, stamps the refresh
time and bumps the delta-query count; on a page error commits nothing (the
partially accumulated entries are discarded) and leaves timestamp and count
untouched.  The boolean result is true when the refresh errored. -/
def refreshCache (uc : URLCache) (pages : List DeltaPage) (now : Nat) : Bool × URLCache :=
  match walkPages uc.idToProps pages with
  | none => (true, { uc with idToProps := [] })
  | some m =>
      (false,
        { uc with
          idToProps := m
          lastRefreshTime := some now
          deltaQueryCount := uc.deltaQueryCount + 1 })

/-- Post-refresh read: an id absent from the enumeration window is an error. -/
def readProps (uc : URLCache) (id : String) : Except Unit ItemProps :=
  match lookupA uc.idToProps id with
  | some p => .ok p
  | none => .error ()

/-- `getItemProperties`: refreshes first (synchronously, under the refresh
mutex) when the cache is empty or stale, propagating a refresh error to the
caller; then answers from the committed map. -/
def getItemProperties (uc : URLCache) (pages : List DeltaPage) (now : Nat) (id : String) :
    Except Unit ItemProps × URLCache :=
  if needsRefresh uc now then
    match refreshCache uc pages now with
    | (true, uc') => (.error (), uc')
    | (false, uc') => (readProps uc' id, uc')
  else (readProps uc id, uc)

/-- N callers of `getItemProperties` in one serial order.  All cache reads and
writes happen under the cache's coordination primitive, so every concurrent
execution is equivalent to some such order. -/
def runCallers (pages : List DeltaPage) (now : Nat) :
    URLCache → List String → List (Except Unit ItemProps) × URLCache
  | uc, [] => ([], uc)
  | uc, id :: rest =>
    let r := getItemProperties uc pages now id
    let rs := runCallers pages now r.2 rest
    (r.1 :: rs.1, rs.2)

/-- Concrete refresh input containing a folder-typed record, mirroring the
"folder item" case of `TestGetItemProperties`: one page holding file "1" and
folder "2". -/
def folderPages : List DeltaPage :=
  [{ items :=
      [{ id := "1", isFolder := false, url := "https://dummy1.com", deleted := false },
       { id := "2", isFolder := true, url := "", deleted := false }]
     err := false }]

/-! ## Drive: restore caches and `ensureDriveExists`

Modelled from the spec: `restoreCaches`/`ensureDriveExists`
(`src/internal/m365/collection/drive/restore.go`) are not under `src/`; only
their unit tests are.  The model follows spec section 4.4: (1) a by-ID cache
hit is reused as-is; (2) otherwise a prior-backup ID-to-name mapping is
consulted and, when the destination already holds a (different) drive under
that name, that drive is reused, preferring the historically known name over
the caller's fallback; (3) otherwise a drive is created under the prior name
(else the fallback name), retrying with numeric name suffixes
(`name`, `name 1`, ...) on an already-exists conflict.  Every successful
resolution is written back into both indices.  The destination's create
responses are supplied as a list consumed in order (as in the unit tests'
mock). -/

structure DriveInfo where
  id : String
  name : String
deriving DecidableEq, Repr

structure RestoreCaches where
  driveIDToDriveInfo : List (String × DriveInfo)
  driveNameToDriveInfo : List (String × DriveInfo)
  backupDriveIDName : List (String × String)
deriving DecidableEq, Repr

inductive PostDriveResp where
  | ok (id : String)
  | conflict
  | err
deriving DecidableEq, Repr

/-- Writes a resolved drive back into both the by-ID and by-name indices. -/
def storeDrive (rc : RestoreCaches) (di : DriveInfo) : RestoreCaches :=
  { rc with
    driveIDToDriveInfo := insertA rc.driveIDToDriveInfo di.id di
    driveNameToDriveInfo := insertA rc.driveNameToDriveInfo di.name di }

/-- The i-th creation attempt's name: `name`, `name 1`, `name 2`, ... -/
def suffixedName (base : String) (i : Nat) : String :=
  if i = 0 then base else base ++ " " ++ toString i

/-- The create-with-retry loop: posts a drive under the suffixed name; an
already-exists conflict retries with the next numeric suffix; any other error
aborts.  Returns the created drive's id, its accepted name and the number of
creation calls made. -/
def createDriveLoop (posts : List PostDriveResp) (base : String) (i : Nat) :
    Except Unit (String × String × Nat) :=
  match posts with
  | [] => .error ()
  | r :: rest =>
    match r with
    | .ok id => .ok (id, suffixedName base i, 1)
    | .conflict =>
        match createDriveLoop rest base (i + 1) with
        | .error e => .error e
        | .ok (id, nm, calls) => .ok (id, nm, calls + 1)
    | .err => .error ()

/-- Branch (3) of `ensureDriveExists`: create the drive and cache the result. -/
def createAndCacheDrive (rc : RestoreCaches) (name : String) (posts : List PostDriveResp) :
    Except Unit (DriveInfo × RestoreCaches × Nat) :=
  match createDriveLoop posts name 0 with
  | .error e => .error e
  | .ok (id, accepted, calls) =>
      let di : DriveInfo := { id := id, name := accepted }
      .ok (di, storeDrive rc di, calls)

/-- `ensureDriveExists` — the reconciliation algorithm of spec section 4.4.
The result carries the resolved drive info, the updated caches, and the number
of drive-creation calls made against the destination. -/
def ensureDriveExists (rc : RestoreCaches) (driveID fallbackName : String)
    (posts : List PostDriveResp) : Except Unit (DriveInfo × RestoreCaches × Nat) :=
  match lookupA rc.driveIDToDriveInfo driveID with
  | some di => .ok (di, rc, 0)
  | none =>
    match lookupA rc.backupDriveIDName driveID with
    | some priorName =>
      match lookupA rc.driveNameToDriveInfo priorName with
      | some di => .ok (di, storeDrive rc di, 0)
      | none => createAndCacheDrive rc priorName posts
    | none => createAndCacheDrive rc fallbackName posts

/-! ## Drive: collision handling (`restoreItem`)

Modelled from the spec: `restoreItem`
(`src/internal/m365/collection/drive/restore.go`) is not under `src/`; only
its unit test is.  The model follows spec sections 4.5 and 7 with the matrix
pinned by `TestRestoreItem_collisionHandling`: no collision (any policy) and
Copy create a new item; Replace on a file collision deletes the existing id
then creates, treating an already-deleted delete error as success; Replace on
a file-folder collision creates without deleting; Skip on any collision
creates nothing, deletes nothing and records a skip.  The destination delete's
outcome is supplied as `DeleteOutcome`. -/

inductive CollisionPolicy where
  | copy
  | replace
  | skip
deriving DecidableEq, Repr

/-- `api.DriveItemIDType`: an existing destination item's id plus folder flag. -/
structure DriveItemIDType where
  itemID : String
  isFolder : Bool
deriving DecidableEq, Repr

inductive DeleteOutcome where
  | ok
  | alreadyDeleted
  | failed
deriving DecidableEq, Repr

/-- Observable effects of one `restoreItem` call: whether a new item was
posted, which item id (if any) was deleted, whether the item was reported as
skipped, and the `count.CollisionSkip` / `count.CollisionReplace` /
`count.NewItemCreated` increments. -/
structure RestoreItemOut where
  posted : Bool
  deletedItemID : Option String
  skipped : Bool
  countSkip : Nat
  countReplace : Nat
  countNew : Nat
deriving DecidableEq, Repr

def restoreItem (policy : CollisionPolicy) (collisionKeys : List (String × DriveItemIDType))
    (itemName : String) (del : DeleteOutcome) : Except Unit RestoreItemOut :=
  match lookupA collisionKeys itemName with
  | none =>
      .ok { posted := true, deletedItemID := none, skipped := false,
            countSkip := 0, countReplace := 0, countNew := 1 }
  | some c =>
    match policy with
    | .copy =>
        .ok { posted := true, deletedItemID := none, skipped := false,
              countSkip := 0, countReplace := 0, countNew := 1 }
    | .skip =>
        .ok { posted := false, deletedItemID := none, skipped := true,
              countSkip := 1, countReplace := 0, countNew := 0 }
    | .replace =>
      if c.isFolder then
        .ok { posted := true, deletedItemID := none, skipped := false,
              countSkip := 0, countReplace := 0, countNew := 1 }
      else
        match del with
        | .failed => .error ()
        | _ =>
            .ok { posted := true, deletedItemID := some c.itemID, skipped := false,
                  countSkip := 0, countReplace := 1, countNew := 0 }

/-! ## Drive: permission resolution (`computePreviousMetadata`)

Modelled from the spec: `computePreviousMetadata`
(`src/internal/m365/collection/drive/restore.go`) is not under `src/`; only
its unit test is.  The model follows spec sections 3 and 4.5: the walk starts
at the item's immediate parent and climbs toward the drive root; the first
ancestor whose stored sharing mode is not "inherited" supplies the effective
metadata; if no such ancestor exists (ancestors inherited or without a stored
record, including the root) the empty/default metadata is returned.  Paths are
lists of folder names within the drive; the parent-path-to-metadata map is
keyed by those lists. -/

inductive SharingMode where
  | custom
  | inherited
deriving DecidableEq, Repr

structure Permission where
  roles : List String
  entityID : String
deriving DecidableEq, Repr

structure Metadata where
  sharingMode : SharingMode
  permissions : List Permission
deriving DecidableEq, Repr

/-- The zero-value `metadata.Metadata{}`: custom sharing mode, no entries. -/
def Metadata.empty : Metadata :=
  { sharingMode := .custom, permissions := [] }

/-- The `parent.Dir()` walk: a non-root path followed by the chain of its
parents, stopping at the drive root. -/
def ancestorChain (l : List String) : List (List String) :=
  match l with
  | [] => []
  | a :: as => (a :: as) :: ancestorChain (a :: as).dropLast
termination_by l.length
decreasing_by
  simp [List.length_dropLast]

/-- The chain of an item's ancestors, nearest (immediate parent) first,
excluding the drive root. -/
def parentChain (itemElems : List String) : List (List String) :=
  ancestorChain itemElems.dropLast

/-- The upward walk over stored parent metadata: an inherited or absent record
defers to the next ancestor; the first non-inherited record wins; an exhausted
chain yields the empty/default metadata. -/
def permWalk (perms : List (List String × Metadata)) : List (List String) → Metadata
  | [] => Metadata.empty
  | p :: rest =>
    match lookupA perms p with
    | some m => if m.sharingMode = .inherited then permWalk perms rest else m
    | none => permWalk perms rest

def computePreviousMetadata (perms : List (List String × Metadata))
    (itemElems : List String) : Metadata :=
  permWalk perms (parentChain itemElems)

end Drive

namespace Fault

variable {ε σ : Type}

theorem addRecoverable_bestEffort_invariant (b : Bus ε σ) (err : Option ε)
    (hff : b.failFast = false) (hf : b.failure = none) :
    (b.AddRecoverable err).failFast = false ∧ (b.AddRecoverable err).failure = none := by
  cases err with
  | none => exact ⟨hff, hf⟩
  | some e =>
      simp [Bus.AddRecoverable, Bus.addRecoverableErr, hff, hf]

theorem foldl_addRecoverable_bestEffort (b : Bus ε σ) (errs : List (Option ε))
    (hff : b.failFast = false) (hf : b.failure = none) :
    (errs.foldl (fun acc e => acc.AddRecoverable e) b).failure = none := by
  induction errs generalizing b with
  | nil => exact hf
  | cons e rest ih =>
      have h := addRecoverable_bestEffort_invariant b e hff hf
      exact ih (b.AddRecoverable e) h.1 h.2

end Fault

theorem length_filterMap_of_isSome {α β : Type} (f : α → Option β) (l : List α)
    (h : ∀ a ∈ l, (f a).isSome) : (l.filterMap f).length = l.length := by
  induction l with
  | nil => rfl
  | cons a rest ih =>
      obtain ⟨b, hb⟩ := Option.isSome_iff_exists.mp (h a (List.mem_cons_self a rest))
      simp [List.filterMap_cons, hb, ih fun x hx => h x (List.mem_cons_of_mem a hx)]

/-- C10: Calling any fault Bus mutation with a nil argument is a no-op that
leaves the entire bus state unchanged: `Fail(nil)` does not set the failure,
`AddRecoverable(nil)` appends nothing and triggers no fail-fast promotion, and
`AddSkip(nil)` appends nothing to the skipped list. -/
theorem fault_nil_mutations_are_noops {ε σ : Type} (b : Fault.Bus ε σ) :
    b.Fail none = b ∧ b.AddRecoverable none = b ∧ b.AddSkip none = b :=
  ⟨rfl, rfl, rfl⟩

/-- C1: For a fault bus constructed with failFast=true and no failure recorded
yet, the first `AddRecoverable` with a non-nil error both appends that error to
the recovered list and sets `Failure()` non-nil (to that error); for a bus
constructed with failFast=false, `Failure()` remains nil after any number of
`AddRecoverable` calls (with `Fail` never called). -/
theorem fault_addRecoverable_failFast_promotion {ε σ : Type} (b : Fault.Bus ε σ) (err : ε)
    (hff : b.FailFast = true) (hf : b.Failure = none) :
    ((b.AddRecoverable (some err)).Recovered = b.Recovered ++ [err]
      ∧ (b.AddRecoverable (some err)).Failure = some err)
    ∧ ∀ errs : List (Option ε),
        (errs.foldl (fun acc e => acc.AddRecoverable e) (Fault.New ε σ false)).Failure = none := by
  constructor
  · have hf' : b.failure = none := hf
    have hff' : b.failFast = true := hff
    constructor
    · simp [Fault.Bus.AddRecoverable, Fault.Bus.addRecoverableErr, Fault.Bus.setFailure,
        Fault.Bus.Recovered, hf', hff']
    · simp [Fault.Bus.AddRecoverable, Fault.Bus.addRecoverableErr, Fault.Bus.setFailure,
        Fault.Bus.Failure, hf', hff']
  · intro errs
    exact Fault.foldl_addRecoverable_bestEffort _ errs rfl rfl

/-- C1 witness: a concrete fail-fast bus and a concrete best-effort call
sequence. -/
theorem fault_addRecoverable_failFast_promotion_witness :
    ((Fault.New Nat Unit true).AddRecoverable (some 7)).Recovered = [7]
    ∧ ((Fault.New Nat Unit true).AddRecoverable (some 7)).Failure = some 7
    ∧ ([some 1, none, some 2].foldl (fun acc e => acc.AddRecoverable e)
        (Fault.New Nat Unit false)).Failure = none := by
  have h := fault_addRecoverable_failFast_promotion (Fault.New Nat Unit true) 7 rfl rfl
  exact ⟨h.1.1, h.1.2, h.2 [some 1, none, some 2]⟩

theorem exchange_addedLoop_all_ok {σ : Type}
    (fetch : String → Except Exchange.FetchErr Exchange.ExchangeItemData)
    (added : List String) (bus : Fault.Bus Exchange.FetchErr σ)
    (hbus : bus.Failure = none)
    (hok : ∀ a ∈ added, ∃ m, fetch a = .ok m) :
    (Exchange.addedLoop fetch added bus).emitted.length = added.length
    ∧ ∀ r ∈ (Exchange.addedLoop fetch added bus).emitted,
        r.id ∈ added ∧ r.deleted = false := by
  induction added with
  | nil => exact ⟨rfl, by intro r hr; simp [Exchange.addedLoop] at hr⟩
  | cons a rest ih =>
      have hns : bus.Failure.isSome = false := by simp [hbus]
      obtain ⟨m, hm⟩ := hok a (List.mem_cons_self a rest)
      have ihr := ih fun x hx => hok x (List.mem_cons_of_mem a hx)
      have hstep : Exchange.addedLoop fetch (a :: rest) bus
          = { emitted :=
                ({ id := a, message := m.data, deleted := false,
                   modTime := m.modified } : StreamItem)
                  :: (Exchange.addedLoop fetch rest bus).emitted,
              success := (Exchange.addedLoop fetch rest bus).success + 1,
              bytes := (Exchange.addedLoop fetch rest bus).bytes + m.size,
              bus := (Exchange.addedLoop fetch rest bus).bus } := by
        simp only [Exchange.addedLoop, Fault.Bus.Failure] at hns ⊢
        simp [hns, hm]
      rw [hstep]
      refine ⟨by simp [ihr.1], ?_⟩
      intro r hr
      rcases List.mem_cons.mp hr with hr | hr
      · subst hr
        exact ⟨List.mem_cons_self a rest, rfl⟩
      · obtain ⟨hid, hdel⟩ := ihr.2 r hr
        exact ⟨List.mem_cons_of_mem a hid, hdel⟩

/-- C2: For every collection stream — the groups stream and the exchange
prefetch stream — over `added` and `removed` id sets, given that no fatal
failure is recorded and every added-item fetch and serialization succeeds
(and fetched/added ids are not among the removed ids), the stream yields
exactly `|added| + |removed|` records; every record for a removed id has
`deleted = true` and a modification time at or after the stream's start; and
the final status reports `attempted = |added| + |removed|`. -/
theorem streamItems_completeness {σ : Type} (added removed : List String)
    (getMsg : String → Option Groups.ChannelMessage)
    (fetch : String → Except Exchange.FetchErr Exchange.ExchangeItemData)
    (clock : Nat → Nat) (start : Nat) (bus : Fault.Bus Exchange.FetchErr σ)
    (hok : ∀ a ∈ added, (getMsg a).isSome)
    (hids : ∀ a ∈ added, ∀ m, getMsg a = some m → m.id ∉ removed)
    (hclock : ∀ n, start ≤ clock n)
    (hfetch : ∀ a ∈ added, ∃ m, fetch a = .ok m)
    (hbus : bus.Failure = none)
    (hdisj : ∀ a ∈ added, a ∉ removed) :
    ((Groups.streamItems added removed getMsg clock none).1.length
        = added.length + removed.length
      ∧ (∀ r ∈ (Groups.streamItems added removed getMsg clock none).1,
          r.id ∈ removed → r.deleted = true ∧ start ≤ r.modTime)
      ∧ (Groups.streamItems added removed getMsg clock none).2.objects
          = added.length + removed.length)
    ∧ ((Exchange.streamItems added removed fetch clock bus).1.length
        = added.length + removed.length
      ∧ (∀ r ∈ (Exchange.streamItems added removed fetch clock bus).1,
          r.id ∈ removed → r.deleted = true ∧ start ≤ r.modTime)
      ∧ (Exchange.streamItems added removed fetch clock bus).2.1.objects
          = added.length + removed.length) := by
  have hex := exchange_addedLoop_all_ok fetch added bus hbus hfetch
  refine ⟨⟨?_, ?_, rfl⟩, ?_, ?_, rfl⟩
  · have hlen : (added.filterMap getMsg).length = added.length :=
      length_filterMap_of_isSome getMsg added hok
    simp [Groups.streamItems, Groups.addedRecords, Groups.fetchedMessages, removedRecords, hlen]
    omega
  · intro r hr hrid
    simp only [Groups.streamItems, List.mem_append] at hr
    rcases hr with hr | hr
    · simp only [removedRecords, List.mem_map] at hr
      obtain ⟨p, _, hp⟩ := hr
      subst hp
      exact ⟨rfl, hclock p.1⟩
    · exfalso
      simp only [Groups.addedRecords, Groups.fetchedMessages, List.mem_map,
        List.mem_filterMap] at hr
      obtain ⟨m, ⟨a, ha, hm⟩, hrm⟩ := hr
      subst hrm
      exact hids a ha m hm hrid
  · simp [Exchange.streamItems, removedRecords, hex.1]
    omega
  · intro r hr hrid
    simp only [Exchange.streamItems, List.mem_append] at hr
    rcases hr with hr | hr
    · simp only [removedRecords, List.mem_map] at hr
      obtain ⟨p, _, hp⟩ := hr
      subst hp
      exact ⟨rfl, hclock p.1⟩
    · exfalso
      exact hdisj r.id (hex.2 r hr).1 hrid

/-- C2 witness: one added and one removed id on both streams, all fetches
succeeding, on a fail-fast exchange bus with no failure. -/
theorem streamItems_completeness_witness :
    ((Groups.streamItems ["a"] ["r"]
        (fun s => some { id := s, data := [1], modified := 9, size := 1 })
        (fun _ => 10) none).1.length = 2
      ∧ (∀ r ∈ (Groups.streamItems ["a"] ["r"]
          (fun s => some { id := s, data := [1], modified := 9, size := 1 })
          (fun _ => 10) none).1,
          r.id ∈ ["r"] → r.deleted = true ∧ 3 ≤ r.modTime)
      ∧ (Groups.streamItems ["a"] ["r"]
          (fun s => some { id := s, data := [1], modified := 9, size := 1 })
          (fun _ => 10) none).2.objects = 2)
    ∧ ((Exchange.streamItems ["a"] ["r"]
        (fun _ => .ok { data := [1], modified := 9, size := 1 })
        (fun _ => 10) (Fault.New Exchange.FetchErr Unit true)).1.length = 2
      ∧ (∀ r ∈ (Exchange.streamItems ["a"] ["r"]
          (fun _ => .ok { data := [1], modified := 9, size := 1 })
          (fun _ => 10) (Fault.New Exchange.FetchErr Unit true)).1,
          r.id ∈ ["r"] → r.deleted = true ∧ 3 ≤ r.modTime)
      ∧ (Exchange.streamItems ["a"] ["r"]
          (fun _ => .ok { data := [1], modified := 9, size := 1 })
          (fun _ => 10) (Fault.New Exchange.FetchErr Unit true)).2.1.objects = 2) := by
  have h := streamItems_completeness (σ := Unit) ["a"] ["r"]
    (fun s => some { id := s, data := [1], modified := 9, size := 1 })
    (fun _ => .ok { data := [1], modified := 9, size := 1 })
    (fun _ => 10) 3 (Fault.New Exchange.FetchErr Unit true)
    (by intro a _; rfl)
    (by
      intro a ha m hm
      simp only [Option.some.injEq] at hm
      subst hm
      simp only [List.mem_singleton] at ha
      subst ha
      simp)
    (by intro n; show 3 ≤ 10; omega)
    (by intro a _; exact ⟨{ data := [1], modified := 9, size := 1 }, rfl⟩)
    rfl
    (by decide)
  exact h

theorem exchange_addedLoop_benign {σ : Type}
    (fetch : String → Except Exchange.FetchErr Exchange.ExchangeItemData)
    (added : List String) (bus : Fault.Bus Exchange.FetchErr σ)
    (hbus : bus.Failure = none)
    (hben : ∀ a ∈ added, ∀ fe, fetch a = .error fe → fe.deletedInFlight = true) :
    (Exchange.addedLoop fetch added bus).success = added.length
    ∧ (Exchange.addedLoop fetch added bus).bus = bus := by
  induction added with
  | nil => exact ⟨rfl, rfl⟩
  | cons a rest ih =>
      have hns : bus.Failure.isSome = false := by simp [hbus]
      have ihr := ih fun x hx fe hfe => hben x (List.mem_cons_of_mem a hx) fe hfe
      cases hfa : fetch a with
      | ok m =>
          simp only [Exchange.addedLoop, Fault.Bus.Failure] at hns ⊢
          simp [hns, hfa, ihr.1, ihr.2]
      | error fe =>
          have hdf : fe.deletedInFlight = true :=
            hben a (List.mem_cons_self a rest) fe hfa
          simp only [Exchange.addedLoop, Fault.Bus.Failure] at hns ⊢
          simp [hns, hfa, hdf, ihr.1, ihr.2]

/-- C8: The two benign races are counted as successes, not errors: a backup
fetch loop in which every fetch either succeeds or fails deleted-in-flight
reports all items as successes and leaves the fault bus untouched (no
recoverable error); and a replace-collision delete failing with the
already-deleted sentinel still completes the replace (the new item is created
and the replace count incremented) with no error returned. -/
theorem benign_races_counted_as_success {σ : Type} (added removed : List String)
    (fetch : String → Except Exchange.FetchErr Exchange.ExchangeItemData)
    (clock : Nat → Nat) (bus : Fault.Bus Exchange.FetchErr σ)
    (keys : List (String × Drive.DriveItemIDType)) (name : String)
    (c : Drive.DriveItemIDType)
    (hbus : bus.Failure = none)
    (hben : ∀ a ∈ added, ∀ fe, fetch a = .error fe → fe.deletedInFlight = true)
    (hc : lookupA keys name = some c) (hcf : c.isFolder = false) :
    ((Exchange.streamItems added removed fetch clock bus).2.1.successes
        = added.length + removed.length
      ∧ (Exchange.streamItems added removed fetch clock bus).2.2 = bus)
    ∧ Drive.restoreItem .replace keys name .alreadyDeleted
        = .ok { posted := true, deletedItemID := some c.itemID, skipped := false,
                countSkip := 0, countReplace := 1, countNew := 0 } := by
  have h := exchange_addedLoop_benign fetch added bus hbus hben
  refine ⟨⟨?_, ?_⟩, ?_⟩
  · simp [Exchange.streamItems, h.1]
    omega
  · simp [Exchange.streamItems, h.2]
  · simp [Drive.restoreItem, hc, hcf]

/-- C8 witness: one added item fetched into a deleted-in-flight error on a
fail-fast bus, and one replace collision whose delete reports
already-deleted. -/
theorem benign_races_counted_as_success_witness :
    ((Exchange.streamItems ["x"] []
        (fun _ => .error { deletedInFlight := true }) (fun _ => 0)
        (Fault.New Exchange.FetchErr Unit true)).2.1.successes = 1
      ∧ (Exchange.streamItems ["x"] []
          (fun _ => .error { deletedInFlight := true }) (fun _ => 0)
          (Fault.New Exchange.FetchErr Unit true)).2.2
        = Fault.New Exchange.FetchErr Unit true)
    ∧ Drive.restoreItem .replace [("file.txt", { itemID := "smarf", isFolder := false })]
        "file.txt" .alreadyDeleted
      = .ok { posted := true, deletedItemID := some "smarf", skipped := false,
              countSkip := 0, countReplace := 1, countNew := 0 } := by
  have h := benign_races_counted_as_success (σ := Unit) ["x"] []
    (fun _ => .error { deletedInFlight := true }) (fun _ => 0)
    (Fault.New Exchange.FetchErr Unit true)
    [("file.txt", { itemID := "smarf", isFolder := false })] "file.txt"
    { itemID := "smarf", isFolder := false }
    rfl
    (by
      intro a _ fe hfe
      simp only [Except.error.injEq] at hfe
      subst hfe
      rfl)
    (by decide) rfl
  exact ⟨⟨h.1.1, h.1.2⟩, h.2⟩

/-- C3: The collision-policy matrix of `restoreItem`: a file collision under
Replace deletes the existing item's id then creates a new item (replace count
1, new-item count 0); any collision under Skip creates nothing, deletes
nothing, reports the item skipped and increments the skip count; every
no-collision case, under any policy, creates a new item and increments the
new-item count. -/
theorem restoreItem_collision_matrix (keys : List (String × Drive.DriveItemIDType))
    (name : String) (c : Drive.DriveItemIDType) (policy : Drive.CollisionPolicy)
    (del : Drive.DeleteOutcome) :
    (lookupA keys name = some c → c.isFolder = false →
      Drive.restoreItem .replace keys name .ok
        = .ok { posted := true, deletedItemID := some c.itemID, skipped := false,
                countSkip := 0, countReplace := 1, countNew := 0 })
    ∧ (lookupA keys name = some c →
      Drive.restoreItem .skip keys name del
        = .ok { posted := false, deletedItemID := none, skipped := true,
                countSkip := 1, countReplace := 0, countNew := 0 })
    ∧ (lookupA keys name = none →
      Drive.restoreItem policy keys name del
        = .ok { posted := true, deletedItemID := none, skipped := false,
                countSkip := 0, countReplace := 0, countNew := 1 }) := by
  refine ⟨fun hc hcf => ?_, fun hc => ?_, fun hn => ?_⟩
  · simp [Drive.restoreItem, hc, hcf]
  · simp [Drive.restoreItem, hc]
  · simp [Drive.restoreItem, hn]

/-- C3 witness: the collision map of `TestRestoreItem_collisionHandling`,
exercising collision+Replace, collision+Skip and no-collision+Copy. -/
theorem restoreItem_collision_matrix_witness :
    (Drive.restoreItem .replace [("file.txt", { itemID := "mndi-id", isFolder := false })]
        "file.txt" .ok
      = .ok { posted := true, deletedItemID := some "mndi-id", skipped := false,
              countSkip := 0, countReplace := 1, countNew := 0 })
    ∧ (Drive.restoreItem .skip [("file.txt", { itemID := "mndi-id", isFolder := false })]
        "file.txt" .ok
      = .ok { posted := false, deletedItemID := none, skipped := true,
              countSkip := 1, countReplace := 0, countNew := 0 })
    ∧ (Drive.restoreItem .copy [] "file.txt" .ok
      = .ok { posted := true, deletedItemID := none, skipped := false,
              countSkip := 0, countReplace := 0, countNew := 1 }) := by
  have h1 := restoreItem_collision_matrix
    [("file.txt", { itemID := "mndi-id", isFolder := false })] "file.txt"
    { itemID := "mndi-id", isFolder := false } Drive.CollisionPolicy.copy
    Drive.DeleteOutcome.ok
  have h2 := restoreItem_collision_matrix [] "file.txt"
    { itemID := "mndi-id", isFolder := false } Drive.CollisionPolicy.copy
    Drive.DeleteOutcome.ok
  exact ⟨h1.1 (by decide) rfl, h1.2.1 (by decide), h2.2.2 rfl⟩

theorem permWalk_eq_findSome (perms : List (List String × Drive.Metadata))
    (chain : List (List String)) :
    Drive.permWalk perms chain =
      (chain.findSome? fun p =>
        match lookupA perms p with
        | some m => if m.sharingMode = .inherited then none else some m
        | none => none).getD Drive.Metadata.empty := by
  induction chain with
  | nil => rfl
  | cons p rest ih =>
      cases h : lookupA perms p with
      | none => simp [Drive.permWalk, List.findSome?_cons, h, ih]
      | some m =>
          by_cases hm : m.sharingMode = .inherited
          · simp [Drive.permWalk, List.findSome?_cons, h, hm, ih]
          · simp [Drive.permWalk, List.findSome?_cons, h, hm]

/-- C4: `computePreviousMetadata` walks from the item's immediate parent
upward toward the root and returns the metadata of the first (nearest)
ancestor whose stored sharing mode is not inherited; if every ancestor is
inherited or has no stored record, it returns the empty/default metadata. -/
theorem computePreviousMetadata_nearest_ancestor
    (perms : List (List String × Drive.Metadata)) (itemElems : List String) :
    Drive.computePreviousMetadata perms itemElems =
      ((Drive.parentChain itemElems).findSome? fun p =>
        match lookupA perms p with
        | some m => if m.sharingMode = .inherited then none else some m
        | none => none).getD Drive.Metadata.empty
    ∧ ((∀ p ∈ Drive.parentChain itemElems, ∀ m, lookupA perms p = some m →
          m.sharingMode = .inherited) →
        Drive.computePreviousMetadata perms itemElems = Drive.Metadata.empty) := by
  refine ⟨permWalk_eq_findSome perms (Drive.parentChain itemElems), fun hall => ?_⟩
  show Drive.permWalk perms (Drive.parentChain itemElems) = Drive.Metadata.empty
  rw [permWalk_eq_findSome perms (Drive.parentChain itemElems)]
  have hnone : ((Drive.parentChain itemElems).findSome? fun p =>
      match lookupA perms p with
      | some m => if m.sharingMode = .inherited then none else some m
      | none => none) = none := by
    rw [List.findSome?_eq_none_iff]
    intro p hp
    cases h : lookupA perms p with
    | none => rfl
    | some m => simp [hall p hp m h]
  rw [hnone]
  rfl

/-- C4 witness: the "top level parent perms" scenario — a 3-level-deep item
whose immediate parent and grandparent are inherited while the top-level
ancestor holds custom write permissions resolves to the top-level ancestor's
metadata. -/
theorem computePreviousMetadata_nearest_ancestor_witness :
    Drive.computePreviousMetadata
      [(["level0", "level1", "level2"],
          { sharingMode := .inherited, permissions := [] }),
       (["level0", "level1"],
          { sharingMode := .inherited, permissions := [] }),
       (["level0"],
          { sharingMode := .custom,
            permissions := [{ roles := ["write"], entityID := "user-id" }] })]
      ["level0", "level1", "level2", "entry"]
    = { sharingMode := .custom,
        permissions := [{ roles := ["write"], entityID := "user-id" }] } := by
  rw [(computePreviousMetadata_nearest_ancestor _ _).1]
  have hchain : Drive.parentChain ["level0", "level1", "level2", "entry"]
      = [["level0", "level1", "level2"], ["level0", "level1"], ["level0"]] := by
    simp [Drive.parentChain, Drive.ancestorChain, List.dropLast]
  rw [hchain]
  simp [List.findSome?_cons, lookupA]

/-- C7: With the reconciliation cache seeded with a prior backup's
container-ID-to-name mapping and the destination holding a container with a
different id under that same name, `ensureDriveExists` resolves to the id
already present under that name (preferring the historically known name over
the caller's fallback name) and makes zero container-creation calls. -/
theorem ensureDriveExists_rename_detection (rc : Drive.RestoreCaches)
    (driveID fallbackName priorName : String) (di : Drive.DriveInfo)
    (posts : List Drive.PostDriveResp)
    (h1 : lookupA rc.driveIDToDriveInfo driveID = none)
    (h2 : lookupA rc.backupDriveIDName driveID = some priorName)
    (h3 : lookupA rc.driveNameToDriveInfo priorName = some di) :
    Drive.ensureDriveExists rc driveID fallbackName posts
      = .ok (di, Drive.storeDrive rc di, 0) := by
  simp [Drive.ensureDriveExists, h1, h2, h3]

/-- C7 witness: the id-switched cache of `TestEnsureDriveExists` — old id
"old-id" maps to name "name", the destination holds id "diff" under that name,
and the fallback name differs. -/
theorem ensureDriveExists_rename_detection_witness :
    Drive.ensureDriveExists
      { driveIDToDriveInfo := [("diff", { id := "diff", name := "name" })]
        driveNameToDriveInfo := [("name", { id := "diff", name := "name" })]
        backupDriveIDName := [("old-id", "name")] }
      "old-id" "other name" [Drive.PostDriveResp.ok "another-id"]
    = .ok ({ id := "diff", name := "name" },
        { driveIDToDriveInfo := [("diff", { id := "diff", name := "name" })]
          driveNameToDriveInfo := [("name", { id := "diff", name := "name" })]
          backupDriveIDName := [("old-id", "name")] },
        0) := by
  have h := ensureDriveExists_rename_detection
    { driveIDToDriveInfo := [("diff", { id := "diff", name := "name" })]
      driveNameToDriveInfo := [("name", { id := "diff", name := "name" })]
      backupDriveIDName := [("old-id", "name")] }
    "old-id" "other name" "name" { id := "diff", name := "name" }
    [Drive.PostDriveResp.ok "another-id"]
    (by decide) (by decide) (by decide)
  rw [h]
  rfl

theorem walkPages_of_mem_err (pages : List Drive.DeltaPage)
    (h : ∃ pg ∈ pages, pg.err = true) (m : List (String × Drive.ItemProps)) :
    Drive.walkPages m pages = none := by
  induction pages generalizing m with
  | nil => simp at h
  | cons pg rest ih =>
      by_cases hp : pg.err = true
      · simp [Drive.walkPages, hp]
      · obtain ⟨q, hq, hqe⟩ := h
        rcases List.mem_cons.mp hq with hq | hq
        · exact absurd (hq ▸ hqe) hp
        · simp only [Drive.walkPages, hp, if_false]
          exact ih ⟨q, hq, hqe⟩ _

/-- C6: If any page of the refresh enumeration returns an error, the entire
URL-cache refresh aborts without committing any partial page data: on a
first-ever populate every reader of `getItemProperties` receives the error and
the cache stays exactly as constructed — no entries, zero last-refresh time,
delta-query count unchanged at zero. -/
theorem urlCache_page_error_atomic (d : String) (pages : List Drive.DeltaPage)
    (now interval : Nat) (id : String)
    (h : ∃ pg ∈ pages, pg.err = true) :
    Drive.getItemProperties (Drive.newURLCache d interval) pages now id
        = (.error (), Drive.newURLCache d interval)
    ∧ (Drive.getItemProperties (Drive.newURLCache d interval) pages now id).2.idToProps = []
    ∧ (Drive.getItemProperties (Drive.newURLCache d interval) pages now id).2.lastRefreshTime
        = none
    ∧ (Drive.getItemProperties (Drive.newURLCache d interval) pages now id).2.deltaQueryCount
        = 0 := by
  have hw := walkPages_of_mem_err pages h []
  have hmain : Drive.getItemProperties (Drive.newURLCache d interval) pages now id
      = (.error (), Drive.newURLCache d interval) := by
    simp [Drive.getItemProperties, Drive.needsRefresh, Drive.newURLCache,
      Drive.refreshCache, hw]
  refine ⟨hmain, ?_, ?_, ?_⟩ <;> rw [hmain]
  · rfl
  · rfl
  · rfl

/-- C6 witness: the "multi-page delta query error" enumeration — a good first
page then an erroring second page — on a fresh cache. -/
theorem urlCache_page_error_atomic_witness :
    Drive.getItemProperties (Drive.newURLCache "drive1" 3600)
        [{ items := [{ id := "1", isFolder := false, url := "https://dummy1.com",
                       deleted := false }]
           err := false },
         { items := [{ id := "2", isFolder := false, url := "https://dummy2.com",
                       deleted := false }]
           err := true }]
        0 "1"
      = (.error (), Drive.newURLCache "drive1" 3600) := by
  have h := urlCache_page_error_atomic "drive1"
    [{ items := [{ id := "1", isFolder := false, url := "https://dummy1.com",
                   deleted := false }]
       err := false },
     { items := [{ id := "2", isFolder := false, url := "https://dummy2.com",
                   deleted := false }]
       err := true }]
    0 3600 "1" (by decide)
  exact h.1

/-- C5 counterexample: the claim — a folder record during refresh makes every
`getItemProperties` caller error and leaves a first-ever refresh uncommitted
(no entries, no last-refresh time) — is false on the "folder item" input of
the repository's own unit test: the caller for file "1" succeeds, one entry is
committed and the refresh time is recorded. -/
theorem urlCache_folder_claim_counterexample :
    (Drive.getItemProperties (Drive.newURLCache "drive1" 3600) Drive.folderPages 0 "1").1
        = .ok { downloadURL := "https://dummy1.com", isDeleted := false }
    ∧ (Drive.getItemProperties (Drive.newURLCache "drive1" 3600)
        Drive.folderPages 0 "1").2.idToProps ≠ []
    ∧ (Drive.getItemProperties (Drive.newURLCache "drive1" 3600)
        Drive.folderPages 0 "1").2.lastRefreshTime ≠ none :=
  ⟨rfl, by decide, by decide⟩

theorem lookupA_insertA_ne {β : Type} (m : List (String × β)) (k key : String) (v : β)
    (h : k ≠ key) : lookupA (insertA m k v) key = lookupA m key := by
  induction m with
  | nil => simp [insertA, lookupA, h]
  | cons e rest ih =>
      by_cases he : e.1 = k
      · simp [insertA, lookupA, he, h]
      · simp only [insertA, he, if_false]
        by_cases hek : e.1 = key
        · simp [lookupA, hek]
        · simp [lookupA, hek, ih]

theorem updateCachePage_untouched_id (items : List Drive.DeltaItem)
    (m : List (String × Drive.ItemProps)) (fid : String)
    (h0 : lookupA m fid = none)
    (h : ∀ it ∈ items, it.isFolder = false → it.id ≠ fid) :
    lookupA (Drive.updateCachePage m items) fid = none := by
  induction items generalizing m with
  | nil => exact h0
  | cons it rest ih =>
      have hstep : Drive.updateCachePage m (it :: rest)
          = Drive.updateCachePage
              (if it.isFolder then m
               else insertA m it.id
                { downloadURL := if it.deleted then "" else it.url,
                  isDeleted := it.deleted }) rest := rfl
      rw [hstep]
      by_cases hf : it.isFolder = true
      · simp only [hf, if_true]
        exact ih m h0 fun x hx => h x (List.mem_cons_of_mem it hx)
      · have hf' : it.isFolder = false := by
          cases hfo : it.isFolder
          · rfl
          · exact absurd hfo hf
        have hne : it.id ≠ fid := h it (List.mem_cons_self it rest) hf'
        simp only [hf', if_false, Bool.false_eq_true]
        refine ih _ ?_ fun x hx => h x (List.mem_cons_of_mem it hx)
        rw [lookupA_insertA_ne m it.id fid _ hne]
        exact h0

theorem walkPages_untouched_id (pages : List Drive.DeltaPage)
    (m m' : List (String × Drive.ItemProps)) (fid : String)
    (h0 : lookupA m fid = none)
    (hwalk : Drive.walkPages m pages = some m')
    (h : ∀ pg ∈ pages, ∀ it ∈ pg.items, it.isFolder = false → it.id ≠ fid) :
    lookupA m' fid = none := by
  induction pages generalizing m with
  | nil =>
      simp only [Drive.walkPages, Option.some.injEq] at hwalk
      exact hwalk ▸ h0
  | cons pg rest ih =>
      by_cases hp : pg.err = true
      · simp [Drive.walkPages, hp] at hwalk
      · simp only [Drive.walkPages, hp, if_false, Bool.false_eq_true] at hwalk
        refine ih _ ?_ hwalk fun q hq => h q (List.mem_cons_of_mem pg hq)
        exact updateCachePage_untouched_id pg.items m fid h0
          (h pg (List.mem_cons_self pg rest))

/-- C5 (amended): a folder-typed record encountered during a URL-cache refresh
is skipped rather than cached: with a successfully enumerating page set
containing a folder record whose id no file record shares, a first-ever
refresh completes — the enumerated file entries are committed, the
last-refresh time is recorded, one delta query is counted — and a caller
requesting the folder's id receives an error because the id was never
committed. -/
theorem urlCache_folder_skipped (d : String) (pages : List Drive.DeltaPage)
    (now interval : Nat) (fid : String) (m : List (String × Drive.ItemProps))
    (hwalk : Drive.walkPages [] pages = some m)
    (_hfolder : ∃ pg ∈ pages, ∃ it ∈ pg.items, it.isFolder = true ∧ it.id = fid)
    (hnofile : ∀ pg ∈ pages, ∀ it ∈ pg.items, it.isFolder = false → it.id ≠ fid) :
    (Drive.getItemProperties (Drive.newURLCache d interval) pages now fid).1 = .error ()
    ∧ (Drive.getItemProperties (Drive.newURLCache d interval) pages now fid).2.idToProps = m
    ∧ (Drive.getItemProperties (Drive.newURLCache d interval)
        pages now fid).2.lastRefreshTime = some now
    ∧ (Drive.getItemProperties (Drive.newURLCache d interval)
        pages now fid).2.deltaQueryCount = 1 := by
  have habsent : lookupA m fid = none :=
    walkPages_untouched_id pages [] m fid rfl hwalk hnofile
  have hmain : Drive.getItemProperties (Drive.newURLCache d interval) pages now fid
      = (.error (),
          { driveID := d, idToProps := m, lastRefreshTime := some now,
            deltaQueryCount := 1, refreshInterval := interval }) := by
    simp [Drive.getItemProperties, Drive.needsRefresh, Drive.newURLCache,
      Drive.refreshCache, Drive.readProps, hwalk, habsent]
  refine ⟨?_, ?_, ?_, ?_⟩ <;> rw [hmain]

/-- C5 (amended) witness: the "folder item" page set — file "1" plus folder
"2" — on a fresh cache; the caller for the folder id "2" errors while the
refresh committed entry "1" and stamped the refresh. -/
theorem urlCache_folder_skipped_witness :
    (Drive.getItemProperties (Drive.newURLCache "drive1" 3600)
        Drive.folderPages 0 "2").1 = .error ()
    ∧ (Drive.getItemProperties (Drive.newURLCache "drive1" 3600)
        Drive.folderPages 0 "2").2.idToProps
      = [("1", { downloadURL := "https://dummy1.com", isDeleted := false })]
    ∧ (Drive.getItemProperties (Drive.newURLCache "drive1" 3600)
        Drive.folderPages 0 "2").2.lastRefreshTime = some 0
    ∧ (Drive.getItemProperties (Drive.newURLCache "drive1" 3600)
        Drive.folderPages 0 "2").2.deltaQueryCount = 1 := by
  have h := urlCache_folder_skipped "drive1" Drive.folderPages 0 3600 "2"
    [("1", { downloadURL := "https://dummy1.com", isDeleted := false })]
    (by decide) (by decide) (by decide)
  exact h

theorem runCallers_no_refresh (pages : List Drive.DeltaPage) (now : Nat)
    (uc : Drive.URLCache) (ids : List String)
    (hnr : Drive.needsRefresh uc now = false) :
    Drive.runCallers pages now uc ids = (ids.map (Drive.readProps uc), uc) := by
  induction ids with
  | nil => rfl
  | cons id rest ih =>
      simp [Drive.runCallers, Drive.getItemProperties, hnr, ih]

/-- C9: For N ≥ 1 callers of `getItemProperties` against an empty URL cache
(executed in any serial order, as the cache's coordination primitive
serializes them), exactly one full delta enumeration is performed — the final
delta-query count equals 1 — and every caller reads its answer from the single
committed refresh. -/
theorem urlCache_single_flight (d : String) (pages : List Drive.DeltaPage)
    (now interval : Nat) (ids : List String) (m : List (String × Drive.ItemProps))
    (hwalk : Drive.walkPages [] pages = some m) (hm : m ≠ []) (hids : ids ≠ []) :
    (Drive.runCallers pages now (Drive.newURLCache d interval) ids).2.deltaQueryCount = 1
    ∧ (Drive.runCallers pages now (Drive.newURLCache d interval) ids).1
        = ids.map (Drive.readProps
            { driveID := d, idToProps := m, lastRefreshTime := some now,
              deltaQueryCount := 1, refreshInterval := interval }) := by
  obtain ⟨id, rest, rfl⟩ := List.exists_cons_of_ne_nil hids
  have hfirst : Drive.getItemProperties (Drive.newURLCache d interval) pages now id
      = (Drive.readProps
          { driveID := d, idToProps := m, lastRefreshTime := some now,
            deltaQueryCount := 1, refreshInterval := interval } id,
         { driveID := d, idToProps := m, lastRefreshTime := some now,
           deltaQueryCount := 1, refreshInterval := interval }) := by
    simp [Drive.getItemProperties, Drive.needsRefresh, Drive.newURLCache,
      Drive.refreshCache, hwalk]
  have hnr : Drive.needsRefresh
      { driveID := d, idToProps := m, lastRefreshTime := some now,
        deltaQueryCount := 1, refreshInterval := interval } now = false := by
    simp [Drive.needsRefresh, hm]
  have hrest := runCallers_no_refresh pages now
    { driveID := d, idToProps := m, lastRefreshTime := some now,
      deltaQueryCount := 1, refreshInterval := interval } rest hnr
  constructor
  · show (Drive.runCallers pages now (Drive.newURLCache d interval)
      (id :: rest)).2.deltaQueryCount = 1
    simp [Drive.runCallers, hfirst, hrest]
  · show (Drive.runCallers pages now (Drive.newURLCache d interval) (id :: rest)).1 = _
    simp [Drive.runCallers, hfirst, hrest]

/-- C9 witness: five files behind one delta page, three callers against a
fresh cache — one delta query, all callers answered from the committed map. -/
theorem urlCache_single_flight_witness :
    (Drive.runCallers
        [{ items :=
            [{ id := "1", isFolder := false, url := "https://dummy1.com", deleted := false },
             { id := "2", isFolder := false, url := "https://dummy2.com", deleted := false },
             { id := "3", isFolder := false, url := "https://dummy3.com", deleted := false },
             { id := "4", isFolder := false, url := "https://dummy4.com", deleted := false },
             { id := "5", isFolder := false, url := "https://dummy5.com", deleted := false }]
           err := false }]
        0 (Drive.newURLCache "drive1" 3600) ["1", "2", "1"]).2.deltaQueryCount = 1
    ∧ (Drive.runCallers
        [{ items :=
            [{ id := "1", isFolder := false, url := "https://dummy1.com", deleted := false },
             { id := "2", isFolder := false, url := "https://dummy2.com", deleted := false },
             { id := "3", isFolder := false, url := "https://dummy3.com", deleted := false },
             { id := "4", isFolder := false, url := "https://dummy4.com", deleted := false },
             { id := "5", isFolder := false, url := "https://dummy5.com", deleted := false }]
           err := false }]
        0 (Drive.newURLCache "drive1" 3600) ["1", "2", "1"]).1
      = [.ok { downloadURL := "https://dummy1.com", isDeleted := false },
         .ok { downloadURL := "https://dummy2.com", isDeleted := false },
         .ok { downloadURL := "https://dummy1.com", isDeleted := false }] := by
  have h := urlCache_single_flight "drive1"
    [{ items :=
        [{ id := "1", isFolder := false, url := "https://dummy1.com", deleted := false },
         { id := "2", isFolder := false, url := "https://dummy2.com", deleted := false },
         { id := "3", isFolder := false, url := "https://dummy3.com", deleted := false },
         { id := "4", isFolder := false, url := "https://dummy4.com", deleted := false },
         { id := "5", isFolder := false, url := "https://dummy5.com", deleted := false }]
       err := false }]
    0 3600 ["1", "2", "1"]
    [("1", { downloadURL := "https://dummy1.com", isDeleted := false }),
     ("2", { downloadURL := "https://dummy2.com", isDeleted := false }),
     ("3", { downloadURL := "https://dummy3.com", isDeleted := false }),
     ("4", { downloadURL := "https://dummy4.com", isDeleted := false }),
     ("5", { downloadURL := "https://dummy5.com", isDeleted := false })]
    (by decide) (by decide) (by decide)
  refine ⟨h.1, ?_⟩
  rw [h.2]
  rfl

end Corso
